import Mathlib

/-!
Verification of the openfeature-cli flag-synchronization core.

Shallow embedding of:
  * `internal/flagset/flagset.go` — the flag model and manifest (de)serialization,
  * `internal/plugin/builtin/default_plugin.go` — the default plugin's compare logic
    and its not-configured guards,
  * `internal/plugin/builtin/devcycle/plugin.go` and `client.go` — the DevCycle
    plugin's push/compare reconciliation, update request bodies and the OAuth
    token cache,
  * `internal/plugin/manager.go` — the plugin registry.

Go's dynamically typed `any` default values are embedded as the inductive
`GoValue`; `fmt.Sprintf("%v", x)` is embedded as `GoValue.render`, covering the
value shapes that arise from JSON decoding and the plugin code (booleans, Go
ints, decimal floating-point literals, strings, string-keyed maps, nil).
Go maps are embedded as association lists; all claims assume or establish the
unique-key regime under which list lookup coincides with Go map lookup.
-/

namespace OFCli

/-- A Go `any` value as it occurs in flag default values.  `vFloat m e`
denotes the decimal number `m * 10^(-e)`, the form produced by decoding a JSON
numeric literal into a `float64` (in the range where Go renders floats in plain
decimal notation). `vInt` is a Go `int` (e.g. the literal `1` produced by
`getOnValue`). -/
inductive GoValue where
  | vNull : GoValue
  | vBool : Bool → GoValue
  | vInt : Int → GoValue
  | vFloat : Int → Nat → GoValue
  | vStr : String → GoValue
  | vObj : List (String × GoValue) → GoValue

/-- Strip trailing decimal zeros from the fraction: `m * 10^(-e)` with the
fraction shortened, as Go's shortest-form float formatting does. -/
def stripZeros : Int → Nat → Int × Nat
  | m, 0 => (m, 0)
  | m, e + 1 => if m % 10 = 0 then stripZeros (m / 10) e else (m, e + 1)

/-- Render the decimal `m * 10^(-e)` the way Go `fmt` renders a `float64`
with `%v` (shortest decimal form, e.g. `1.0 ↦ "1"`, `-0.5 ↦ "-0.5"`). -/
def renderDecimal (m : Int) (e : Nat) : String :=
  let p := stripZeros m e
  if p.2 = 0 then toString p.1
  else
    let a := p.1.natAbs
    let ip := a / 10 ^ p.2
    let fp := a % 10 ^ p.2
    let fpStr := toString fp
    let pad := String.mk (List.replicate (p.2 - fpStr.length) '0')
    (if p.1 < 0 then "-" else "") ++ toString ip ++ "." ++ pad ++ fpStr

mutual

/-- Embedding of `fmt.Sprintf("%v", x)` for the Go values modelled by
`GoValue`: booleans print `true`/`false`, numbers in decimal, strings verbatim,
maps as `map[k1:v1 k2:v2]` with keys in sorted order, and `nil` as `<nil>`. -/
def GoValue.render : GoValue → String
  | GoValue.vNull => "<nil>"
  | GoValue.vBool b => if b then "true" else "false"
  | GoValue.vInt n => toString n
  | GoValue.vFloat m e => renderDecimal m e
  | GoValue.vStr s => s
  | GoValue.vObj fields =>
      let rendered := GoValue.renderFields fields
      let sorted := rendered.mergeSort (fun a b => a.1 ≤ b.1)
      "map[" ++ String.intercalate " " (sorted.map (fun p => p.1 ++ ":" ++ p.2)) ++ "]"

/-- Render each field of a Go map value. -/
def GoValue.renderFields : List (String × GoValue) → List (String × String)
  | [] => []
  | (k, v) :: rest => (k, GoValue.render v) :: GoValue.renderFields rest

end

/-- Embeds `FlagType` from `internal/flagset/flagset.go`: the primitive flag types. -/
inductive FlagType where
  | unknownFlagType
  | intType
  | floatType
  | boolType
  | stringType
  | objectType
  deriving DecidableEq, Repr

/-- Embeds `FlagType.String()` from `internal/flagset/flagset.go`. -/
def FlagType.goString : FlagType → String
  | FlagType.intType => "integer"
  | FlagType.floatType => "float"
  | FlagType.boolType => "boolean"
  | FlagType.stringType => "string"
  | FlagType.objectType => "object"
  | FlagType.unknownFlagType => "unknown"

/-- Embeds `ParseFlagType` from `internal/flagset/flagset.go`: converts a string flag
type to the `FlagType` enum; unknown strings are a hard error. -/
def ParseFlagType (typeStr : String) : Except String FlagType :=
  if typeStr = "integer" ∨ typeStr = "Integer" then Except.ok FlagType.intType
  else if typeStr = "float" ∨ typeStr = "Float" ∨ typeStr = "Number" then Except.ok FlagType.floatType
  else if typeStr = "boolean" ∨ typeStr = "bool" ∨ typeStr = "Boolean" then Except.ok FlagType.boolType
  else if typeStr = "string" ∨ typeStr = "String" then Except.ok FlagType.stringType
  else if typeStr = "object" ∨ typeStr = "Object" ∨ typeStr = "JSON" then Except.ok FlagType.objectType
  else Except.error ("unknown flag type: " ++ typeStr)

/-- Embeds `Flag` from `internal/flagset/flagset.go`. -/
structure Flag where
  Key : String
  Typ : FlagType
  Description : String
  DefaultValue : GoValue
  Expiry : String

/-- Embeds `Flagset` from `internal/flagset/flagset.go`. -/
structure Flagset where
  Flags : List Flag

/-- Lookup in a key→Flag Go map built from a flag list (`localMap`/`remoteMap`
in the Compare functions).  Under unique keys — the loader-level invariant both
Compare implementations assume — list search coincides with Go map access. -/
def lookupFlag (flags : List Flag) (k : String) : Option Flag :=
  flags.find? (fun f => f.Key = k)

/-- Embeds `flagsEqual` as defined identically in
`internal/plugin/builtin/default_plugin.go` (lines 191–199) and
`internal/plugin/builtin/devcycle/plugin.go` (lines 347–353): flags are equal
when key, type and description agree and the `fmt.Sprintf("%v", ·)` renderings
of the default values agree. -/
def flagsEqual (a b : Flag) : Bool :=
  if a.Key = b.Key then
    if a.Typ = b.Typ then
      if a.Description = b.Description then
        a.DefaultValue.render = b.DefaultValue.render
      else false
    else false
  else false

/-- Embeds `FlagDiff` from `internal/plugin/plugin.go`. -/
structure FlagDiff where
  Key : String
  Lcl : Flag
  Rmt : Flag

/-- Embeds `CompareResult` from `internal/plugin/plugin.go`. -/
structure CompareResult where
  Added : List Flag := []
  Removed : List Flag := []
  Modified : List FlagDiff := []
  Unchanged : List Flag := []

/-- The classification loops shared verbatim by `DefaultPlugin.Compare`
(`default_plugin.go` lines 150–187) and the DevCycle `Plugin.Compare`
(`devcycle/plugin.go` lines 234–275): every local flag is classified as Added
(key absent remotely), Modified (present but not `flagsEqual`) or Unchanged
(present and `flagsEqual`); every remote flag whose key is absent locally is
Removed.  Go iterates the maps in unspecified order; with unique keys the
classification per key is order-independent, and we enumerate in list order. -/
def compareFlagLists (lcl rmt : List Flag) : CompareResult :=
  { Added := lcl.filter (fun f => (lookupFlag rmt f.Key).isNone)
    Modified := lcl.filterMap (fun f =>
      match lookupFlag rmt f.Key with
      | some rf => if flagsEqual f rf then none else some ⟨f.Key, f, rf⟩
      | none => none)
    Unchanged := lcl.filter (fun f =>
      match lookupFlag rmt f.Key with
      | some rf => flagsEqual f rf
      | none => false)
    Removed := rmt.filter (fun rf => (lookupFlag lcl rf.Key).isNone) }

/-- The keys of a list of flags. -/
def keysOf (l : List Flag) : List String := l.map Flag.Key

/-- The partition property of a `CompareResult` against local and remote key
sets: the Added/Modified/Unchanged key sets are pairwise disjoint and cover
exactly the local keys, and the Removed keys are exactly the remote keys that
are not local. -/
def ComparePartition (lcl rmt : List Flag) (res : CompareResult) : Prop :=
  (∀ k, k ∈ keysOf lcl ↔
      (k ∈ keysOf res.Added ∨ k ∈ res.Modified.map FlagDiff.Key ∨ k ∈ keysOf res.Unchanged))
  ∧ (∀ k, ¬(k ∈ keysOf res.Added ∧ k ∈ res.Modified.map FlagDiff.Key))
  ∧ (∀ k, ¬(k ∈ keysOf res.Added ∧ k ∈ keysOf res.Unchanged))
  ∧ (∀ k, ¬(k ∈ res.Modified.map FlagDiff.Key ∧ k ∈ keysOf res.Unchanged))
  ∧ (∀ k, k ∈ keysOf res.Removed ↔ (k ∈ keysOf rmt ∧ k ∉ keysOf lcl))

namespace devcycle

/-- Embeds `Variable` from `internal/plugin/builtin/devcycle/client.go` (the fields
the reconciliation reads or writes; the read-only bookkeeping fields `_id`,
`createdAt`, `updatedAt` are not modelled). -/
structure Variable where
  Key : String
  Name : String := ""
  Typ : String
  Description : String
  DefaultValue : GoValue

/-- Embeds `flagTypeToDevCycleType` from `devcycle/plugin.go` lines 319–333. -/
def flagTypeToDevCycleType : FlagType → String
  | FlagType.boolType => "Boolean"
  | FlagType.stringType => "String"
  | FlagType.intType => "Number"
  | FlagType.floatType => "Number"
  | FlagType.objectType => "JSON"
  | _ => "String"

/-- Embeds `flagToVariable` from `devcycle/plugin.go` lines 293–301. -/
def flagToVariable (flag : Flag) : Variable :=
  { Key := flag.Key
    Typ := flagTypeToDevCycleType flag.Typ
    Description := flag.Description
    DefaultValue := flag.DefaultValue }

/-- Embeds `variableNeedsUpdate` from `devcycle/plugin.go` lines 335–345: update is
needed when type or description differ, or the `%v` renderings of the default
values differ. -/
def variableNeedsUpdate (existing newV : Variable) : Bool :=
  if existing.Typ ≠ newV.Typ then true
  else if existing.Description ≠ newV.Description then true
  else decide (existing.DefaultValue.render ≠ newV.DefaultValue.render)

/-- Lookup in the `remoteMap` built from the fetched variables
(`devcycle/plugin.go` lines 177–180); with unique keys this is Go map access. -/
def lookupVar (vars : List Variable) (k : String) : Option Variable :=
  vars.find? (fun v => v.Key = k)

/-- Embeds `PushResult` from `internal/plugin/plugin.go` (the fields the DevCycle
push populates).  Errors are modelled by their formatted messages. -/
structure PushResult where
  Created : List Flag := []
  Updated : List Flag := []
  Unchanged : List Flag := []
  Errors : List String := []

/-- Outcome of the mutating backend calls during a push: for each flag key,
whether `CreateFeatureWithVariable` resp. `UpdateVariable` returns nil. -/
structure Backend where
  createOk : String → Bool
  updateOk : String → Bool

/-- The body of the PATCH request issued by `Client.UpdateVariable`
(`devcycle/client.go` lines 262–264): a map holding only the description. -/
def updateRequestBody (v : Variable) : List (String × GoValue) :=
  [("description", GoValue.vStr v.Description)]

/-- Server-side effect of `Client.UpdateVariable`: a PATCH whose body is
`updateRequestBody` rewrites only the description of the targeted variable —
type and default value are not in the body, so they stay as they were. -/
def applyUpdate (vars : List Variable) (key : String) (v : Variable) : List Variable :=
  vars.map (fun ev => if ev.Key = key then { ev with Description := v.Description } else ev)

/-- Server-side effect of `Client.CreateFeatureWithVariable`
(`devcycle/client.go` lines 207–256): the created feature carries one variable
with the pushed key, name = key, type, description and default value; the
project's variable list then contains it. -/
def applyCreate (vars : List Variable) (v : Variable) : List Variable :=
  vars ++ [{ Key := v.Key, Name := v.Key, Typ := v.Typ,
             Description := v.Description, DefaultValue := v.DefaultValue }]

/-- One iteration of the per-flag loop of `Plugin.Push` (`devcycle/plugin.go`
lines 184–210): classify `flag` against the initial snapshot `server`
(`remoteMap` is built once, before the loop), appending the flag to exactly one
of Updated/Unchanged/Created/Errors; in a real run a failed create/update
appends a formatted error and continues, and the accompanying remote variable
list evolves under the successfully issued mutations. -/
def pushStep (server : List Variable) (dryRun : Bool) (b : Backend)
    (acc : PushResult × List Variable) (flag : Flag) : PushResult × List Variable :=
  let result := acc.1
  let srv := acc.2
  let pushedVar := flagToVariable flag
  match lookupVar server flag.Key with
  | some existingVar =>
      if variableNeedsUpdate existingVar pushedVar then
        if dryRun then
          ({ result with Updated := result.Updated ++ [flag] }, srv)
        else if b.updateOk flag.Key then
          ({ result with Updated := result.Updated ++ [flag] },
           applyUpdate srv flag.Key pushedVar)
        else
          ({ result with Errors := result.Errors ++ ["failed to update " ++ flag.Key] }, srv)
      else
        ({ result with Unchanged := result.Unchanged ++ [flag] }, srv)
  | none =>
      if dryRun then
        ({ result with Created := result.Created ++ [flag] }, srv)
      else if b.createOk flag.Key then
        ({ result with Created := result.Created ++ [flag] },
         applyCreate srv pushedVar)
      else
        ({ result with Errors := result.Errors ++ ["failed to create " ++ flag.Key] }, srv)

/-- The per-flag loop of `Plugin.Push` (`devcycle/plugin.go` lines 182–212)
after a successful initial `GetVariables` fetch, paired with the evolution of
the remote variable list under the issued mutations. -/
def pushExec (flags : List Flag) (server : List Variable) (dryRun : Bool)
    (b : Backend) : PushResult × List Variable :=
  flags.foldl (pushStep server dryRun b) ({}, server)

/-- The `PushResult` computed by `Plugin.Push` for a given remote snapshot and
backend behavior (the value the Go function returns). -/
def Push (flags : List Flag) (server : List Variable) (dryRun : Bool)
    (b : Backend) : PushResult :=
  (pushExec flags server dryRun b).1

/-- Whether the loop classifies a flag as Created: key absent remotely, and in
a real run the create call must succeed for the flag to be recorded. -/
def createdPred (s : List Variable) (d : Bool) (b : Backend) (f : Flag) : Bool :=
  (lookupVar s f.Key).isNone && (d || b.createOk f.Key)

/-- Whether the loop classifies a flag as Updated. -/
def updatedPred (s : List Variable) (d : Bool) (b : Backend) (f : Flag) : Bool :=
  match lookupVar s f.Key with
  | some ev => variableNeedsUpdate ev (flagToVariable f) && (d || b.updateOk f.Key)
  | none => false

/-- Whether the loop classifies a flag as Unchanged. -/
def unchangedPred (s : List Variable) (f : Flag) : Bool :=
  match lookupVar s f.Key with
  | some ev => !variableNeedsUpdate ev (flagToVariable f)
  | none => false

/-- The error entry the loop appends for a flag, if any. -/
def errorEntry (s : List Variable) (d : Bool) (b : Backend) (f : Flag) : Option String :=
  match lookupVar s f.Key with
  | some ev =>
      if variableNeedsUpdate ev (flagToVariable f) && !d && !b.updateOk f.Key then
        some ("failed to update " ++ f.Key)
      else none
  | none =>
      if !d && !b.createOk f.Key then some ("failed to create " ++ f.Key) else none

/-- OAuth `tokenResponse` from `devcycle/client.go` lines 57–61. -/
structure TokenResponse where
  accessToken : String
  tokenType : String
  expiresIn : Int

/-- The token cache inside `Client` (`devcycle/client.go` lines 24–31):
the cached access token and its expiry instant, on an integer timeline of
seconds. -/
structure TokenState where
  accessToken : String
  tokenExpiry : Int

/-- The result of one network interaction with the OAuth endpoint: either a
parsed 200 response or a failure (non-2xx status, transport error, …). -/
def AuthOutcome := Except String TokenResponse

/-- Embeds `Client.authenticate` (`devcycle/client.go` lines 78–125): under the token
lock, if the cached token is non-empty and `now` is before its expiry, return
immediately with no network call; otherwise perform exactly one OAuth
client-credentials exchange (`exchange`), and on success store the new token
with expiry `now + expiresIn − 60` seconds — one minute shorter than the
server-reported lifetime.  Returns (error?, new token state, number of
authentication network calls performed). -/
def authenticate (c : TokenState) (now : Int) (exchange : Except String TokenResponse) :
    Except String Unit × TokenState × Nat :=
  if c.accessToken ≠ "" ∧ now < c.tokenExpiry then
    (Except.ok (), c, 0)
  else
    match exchange with
    | Except.error e => (Except.error ("failed to authenticate: " ++ e), c, 1)
    | Except.ok tr =>
        (Except.ok (),
         { accessToken := tr.accessToken, tokenExpiry := now + (tr.expiresIn - 60) }, 1)

/-- Embeds `Client.doRequest` (`devcycle/client.go` lines 127–156): re-validate token
freshness via `authenticate` before sending; on auth failure the request is not
sent, otherwise the request goes out with a bearer header built from the
(possibly refreshed) cached token.  Returns (outcome carrying the
Authorization header used, new token state, authentication call count). -/
def doRequest (c : TokenState) (now : Int) (exchange : Except String TokenResponse) :
    Except String String × TokenState × Nat :=
  match authenticate c now exchange with
  | (Except.error e, c', n) => (Except.error e, c', n)
  | (Except.ok _, c', n) => (Except.ok ("Bearer " ++ c'.accessToken), c', n)

end devcycle

namespace manager

/-- Embeds `Metadata` from `internal/plugin/plugin.go` (the fields `Manager.Register`
reads). -/
structure Metadata where
  Name : String
  Description : String
  Stability : String
  deriving DecidableEq, Repr

/-- A `PluginFactory` (`manager.go` line 12): a stateless constructor.  It is
modelled by the metadata of the instances it constructs plus an identity tag
distinguishing different factories that report the same metadata. -/
structure PluginFactory where
  fid : Nat
  instMeta : Metadata
  deriving DecidableEq, Repr

/-- Calling the factory and reading `plugin.Metadata()` (`manager.go`
lines 41–42). -/
def PluginFactory.metadata (f : PluginFactory) : Metadata := f.instMeta

/-- Embeds `PluginInfo` from `manager.go` lines 15–20. -/
structure PluginInfo where
  Name : String
  Description : String
  Stability : String
  Factory : PluginFactory
  deriving DecidableEq, Repr

/-- Embeds `Manager` (`manager.go` lines 23–26): the name→info registry map,
modelled as an association list in registration order (unique names are an
invariant `Register` maintains). -/
structure Manager where
  plugins : List (String × PluginInfo)
  deriving DecidableEq, Repr

/-- Embeds `NewManager` (`manager.go` lines 29–33). -/
def NewManager : Manager := { plugins := [] }

/-- Go map access `m.plugins[name]`. -/
def Manager.lookup (m : Manager) (name : String) : Option PluginInfo :=
  (m.plugins.find? (fun p => p.1 = name)).map Prod.snd

/-- Embeds `Manager.Register` (`manager.go` lines 36–60): instantiate the factory
once to read metadata; reject an empty name and a duplicate name without
touching the map; otherwise record name, description, stability and the
factory.  Returns the error (if any) and the registry state afterwards. -/
def Manager.Register (m : Manager) (factory : PluginFactory) : Except String Unit × Manager :=
  let meta := factory.metadata
  if meta.Name = "" then
    (Except.error "plugin name cannot be empty", m)
  else if (m.lookup meta.Name).isSome then
    (Except.error ("plugin " ++ meta.Name ++ " is already registered"), m)
  else
    (Except.ok (),
     { plugins := m.plugins ++
        [(meta.Name,
          { Name := meta.Name, Description := meta.Description,
            Stability := meta.Stability, Factory := factory })] })

/-- Embeds `Manager.Get` (`manager.go` lines 62–74): look the name up and return a
fresh instance from the stored factory (modelled by the factory itself, which
determines the instance). -/
def Manager.Get (m : Manager) (name : String) : Except String PluginFactory :=
  match m.lookup name with
  | none => Except.error ("plugin " ++ name ++ " not found")
  | some info => Except.ok info.Factory

end manager

namespace manifest

/-- One entry of the manifest JSON document
(`{"flags": {<key>: {flagType, description, defaultValue, expiry}}}`), the
shape both `Flagset.MarshalJSON` and `Flagset.UnmarshalJSON` use
(`flagset.go` lines 108–179).  `expiry` is `none` when the JSON key is absent;
`MarshalJSON` tags the field `omitempty`, so an empty expiry string is
omitted, and on the unmarshal side an absent key decodes to `""`. -/
structure ManifestEntry where
  flagType : String
  description : String
  defaultValue : GoValue
  expiry : Option String

/-- The manifest's `flags` JSON object, as an association list.  Go builds a
`map[string]…`; with unique flag keys (the loader invariant) the list in flag
order carries the same finite map. -/
def ManifestDoc := List (String × ManifestEntry)

/-- Embeds `Flagset.MarshalJSON` (`flagset.go` lines 146–179) at the document level:
each flag becomes an entry keyed by `flag.Key` with `flagType` the Go
`Type.String()` rendering, and the expiry omitted when empty. -/
def MarshalJSON (fs : Flagset) : ManifestDoc :=
  fs.Flags.map (fun flag =>
    (flag.Key,
     { flagType := flag.Typ.goString
       description := flag.Description
       defaultValue := flag.DefaultValue
       expiry := if flag.Expiry = "" then none else some flag.Expiry }))

/-- Insert a flag into a key-sorted list, keeping it sorted. -/
def insertByKey (f : Flag) : List Flag → List Flag
  | [] => [f]
  | g :: gs => if f.Key ≤ g.Key then f :: g :: gs else g :: insertByKey f gs

/-- The `sort.Slice(fs.Flags, …Key < …Key)` normalization at the end of
`Flagset.UnmarshalJSON` (`flagset.go` lines 139–141). -/
def sortByKey (l : List Flag) : List Flag := l.foldr insertByKey []

/-- One step of the entry loop in `Flagset.UnmarshalJSON` (`flagset.go`
lines 123–136): parse the entry's `flagType` (a hard error on unknown types),
read an absent expiry as `""`, and append the flag. -/
def readEntry (acc : List Flag) (entry : String × ManifestEntry) :
    Except String (List Flag) := do
  let flagType ← ParseFlagType entry.2.flagType
  pure (acc ++ [{ Key := entry.1
                  Typ := flagType
                  Description := entry.2.description
                  DefaultValue := entry.2.defaultValue
                  Expiry := entry.2.expiry.getD "" }])

/-- Embeds `Flagset.UnmarshalJSON` (`flagset.go` lines 108–144) at the document
level: collect the flags entry by entry and sort them by key. -/
def UnmarshalJSON (doc : ManifestDoc) : Except String Flagset := do
  let flags ← doc.foldlM readEntry []
  pure { Flags := sortByKey flags }

end manifest

namespace builtin

/-- The `sync.PushResult` shape converted by `DefaultPlugin.Push`
(`default_plugin.go` lines 123–128). -/
structure PushOutcome where
  Created : List Flag := []
  Updated : List Flag := []
  Unchanged : List Flag := []

/-- The behavior of the external `sync.Client` held by `DefaultPlugin`
(package `internal/api/sync`, outside this repository's core): each field is
the outcome of the corresponding network operation.  Only its presence or
absence matters for the not-configured guards. -/
structure SyncNet where
  pullFlags : Except String Flagset
  pushFlags : Except String PushOutcome

/-- Embeds `DefaultPlugin` (`default_plugin.go` lines 16–19): the client is nil until
`Configure` runs; `some cfg` records a constructed client. -/
structure DefaultPlugin where
  client : Option SyncNet

/-- Embeds `NewDefaultPlugin` (`default_plugin.go` lines 22–24): a fresh instance on
which `Configure` was never called has a nil client. -/
def NewDefaultPlugin : DefaultPlugin := { client := none }

/-- Embeds `PullOptions`/`PushOptions`/`CompareOptions` (`internal/plugin/plugin.go`):
the context is irrelevant to the guards and is modelled as an opaque tag. -/
structure Options where
  contextTag : Nat := 0
  DryRun : Bool := false

/-- Embeds `DefaultPlugin.Pull` (`default_plugin.go` lines 82–94): a nil client is
rejected before any network call.  The second component counts network calls
issued. -/
def DefaultPlugin.Pull (p : DefaultPlugin) (opts : Options) :
    Except String Flagset × Nat :=
  match p.client with
  | none => (Except.error "plugin not configured: call Configure() first", 0)
  | some net =>
      match net.pullFlags with
      | Except.error e => (Except.error e, 1)
      | Except.ok fs => (Except.ok fs, 1)

/-- Embeds `DefaultPlugin.Push` (`default_plugin.go` lines 97–129): a nil client is
rejected before the remote fetch and the push call. -/
def DefaultPlugin.Push (p : DefaultPlugin) (lcl : Flagset) (opts : Options) :
    Except String PushOutcome × Nat :=
  match p.client with
  | none => (Except.error "plugin not configured: call Configure() first", 0)
  | some net =>
      match net.pullFlags with
      | Except.error e => (Except.error ("failed to fetch remote flags for comparison: " ++ e), 1)
      | Except.ok _ =>
          match net.pushFlags with
          | Except.error e => (Except.error e, 2)
          | Except.ok r => (Except.ok r, 2)

/-- Embeds `DefaultPlugin.Compare` (`default_plugin.go` lines 132–188): a nil client
is rejected before the remote fetch; otherwise the fetched remote flags are
classified by `compareFlagLists`. -/
def DefaultPlugin.Compare (p : DefaultPlugin) (lcl : Flagset) (opts : Options) :
    Except String CompareResult × Nat :=
  match p.client with
  | none => (Except.error "plugin not configured: call Configure() first", 0)
  | some net =>
      match net.pullFlags with
      | Except.error e => (Except.error ("failed to fetch remote flags: " ++ e), 1)
      | Except.ok remoteFlags =>
          (Except.ok (compareFlagLists lcl.Flags remoteFlags.Flags), 1)

end builtin

/-! ### Helper lemmas -/

theorem mem_keysOf {l : List Flag} {k : String} :
    k ∈ keysOf l ↔ ∃ f, f ∈ l ∧ f.Key = k := by
  simp [keysOf, List.mem_map]

theorem lookupFlag_eq_none {l : List Flag} {k : String} :
    lookupFlag l k = none ↔ k ∉ keysOf l := by
  constructor
  · intro h hk
    rcases mem_keysOf.mp hk with ⟨f, hf, hfk⟩
    have := List.find?_eq_none.mp h f hf
    simp [hfk] at this
  · intro h
    apply List.find?_eq_none.mpr
    intro f hf
    simp only [decide_eq_true_eq]
    intro hfk
    exact h (mem_keysOf.mpr ⟨f, hf, hfk⟩)

theorem lookupFlag_key {l : List Flag} {k : String} {rf : Flag}
    (h : lookupFlag l k = some rf) : rf.Key = k := by
  have := List.find?_some h
  simpa using this

theorem lookupFlag_mem {l : List Flag} {k : String} {rf : Flag}
    (h : lookupFlag l k = some rf) : rf ∈ l :=
  List.mem_of_find?_eq_some h

theorem keysOf_nodup_inj {l : List Flag} (h : (keysOf l).Nodup)
    {f g : Flag} (hf : f ∈ l) (hg : g ∈ l) (hk : f.Key = g.Key) : f = g :=
  List.inj_on_of_nodup_map h hf hg hk

/-! ### C1: diff completeness of Compare -/

theorem mem_added_iff {lcl rmt : List Flag} {k : String} :
    k ∈ keysOf (compareFlagLists lcl rmt).Added ↔
      ∃ f, f ∈ lcl ∧ f.Key = k ∧ lookupFlag rmt k = none := by
  simp only [compareFlagLists, keysOf, List.mem_map, List.mem_filter]
  constructor
  · rintro ⟨f, ⟨hf, hnone⟩, hk⟩
    subst hk
    exact ⟨f, hf, rfl, Option.isNone_iff_eq_none.mp hnone⟩
  · rintro ⟨f, hf, hk, hnone⟩
    subst hk
    exact ⟨f, ⟨hf, by simp [hnone]⟩, rfl⟩

theorem mem_modified_iff {lcl rmt : List Flag} {k : String} :
    k ∈ (compareFlagLists lcl rmt).Modified.map FlagDiff.Key ↔
      ∃ f rf, f ∈ lcl ∧ f.Key = k ∧ lookupFlag rmt k = some rf ∧ flagsEqual f rf = false := by
  simp only [compareFlagLists, List.mem_map, List.mem_filterMap]
  constructor
  · rintro ⟨d, ⟨f, hf, hd⟩, hk⟩
    subst hk
    rcases hlook : lookupFlag rmt f.Key with _ | rf
    · simp [hlook] at hd
    · simp only [hlook] at hd
      rcases heq : flagsEqual f rf with _ | _
      · rw [heq] at hd
        simp only [Bool.false_eq_true, if_false, Option.some.injEq] at hd
        subst hd
        exact ⟨f, rf, hf, rfl, hlook, heq⟩
      · rw [heq] at hd
        simp at hd
  · rintro ⟨f, rf, hf, hk, hlook, heq⟩
    subst hk
    refine ⟨⟨f.Key, f, rf⟩, ⟨f, hf, ?_⟩, rfl⟩
    simp only [hlook, heq]
    simp

theorem mem_unchanged_iff {lcl rmt : List Flag} {k : String} :
    k ∈ keysOf (compareFlagLists lcl rmt).Unchanged ↔
      ∃ f rf, f ∈ lcl ∧ f.Key = k ∧ lookupFlag rmt k = some rf ∧ flagsEqual f rf = true := by
  simp only [compareFlagLists, keysOf, List.mem_map, List.mem_filter]
  constructor
  · rintro ⟨f, ⟨hf, hpred⟩, hk⟩
    subst hk
    rcases hlook : lookupFlag rmt f.Key with _ | rf
    · simp [hlook] at hpred
    · simp only [hlook] at hpred
      exact ⟨f, rf, hf, rfl, rfl, hpred⟩
  · rintro ⟨f, rf, hf, hk, hlook, heq⟩
    subst hk
    refine ⟨f, ⟨hf, ?_⟩, rfl⟩
    simp only [hlook]
    exact heq

theorem mem_removed_iff {lcl rmt : List Flag} {k : String} :
    k ∈ keysOf (compareFlagLists lcl rmt).Removed ↔
      (k ∈ keysOf rmt ∧ k ∉ keysOf lcl) := by
  constructor
  · intro h
    rcases mem_keysOf.mp h with ⟨rf, hrf, hk⟩
    subst hk
    have hrf2 := List.mem_filter.mp hrf
    exact ⟨mem_keysOf.mpr ⟨rf, hrf2.1, rfl⟩,
           lookupFlag_eq_none.mp (Option.isNone_iff_eq_none.mp hrf2.2)⟩
  · rintro ⟨hkr, hnot⟩
    rcases mem_keysOf.mp hkr with ⟨rf, hrf, hk⟩
    subst hk
    apply mem_keysOf.mpr
    refine ⟨rf, List.mem_filter.mpr ⟨hrf, ?_⟩, rfl⟩
    simp [lookupFlag_eq_none.mpr hnot]

/-- Claim C1: For every local and remote flag list with unique keys, `Compare`
(the classification shared by `DefaultPlugin.Compare` and the DevCycle
`Plugin.Compare`) partitions the local key set exactly into the pairwise
disjoint Added/Modified/Unchanged key sets, and the Removed key set is exactly
the set of remote keys that are not local keys. -/
theorem compare_diff_completeness (lcl rmt : List Flag)
    (hl : (keysOf lcl).Nodup) (hr : (keysOf rmt).Nodup) :
    ComparePartition lcl rmt (compareFlagLists lcl rmt) := by
  refine ⟨?_, ?_, ?_, ?_, fun k => mem_removed_iff⟩
  · intro k
    constructor
    · intro hk
      rcases mem_keysOf.mp hk with ⟨f, hf, hfk⟩
      rcases hlook : lookupFlag rmt k with _ | rf
      · exact Or.inl (mem_added_iff.mpr ⟨f, hf, hfk, hlook⟩)
      · rcases heq : flagsEqual f rf with _ | _
        · exact Or.inr (Or.inl (mem_modified_iff.mpr ⟨f, rf, hf, hfk, hlook, heq⟩))
        · exact Or.inr (Or.inr (mem_unchanged_iff.mpr ⟨f, rf, hf, hfk, hlook, heq⟩))
    · rintro (h | h | h)
      · rcases mem_added_iff.mp h with ⟨f, hf, hfk, hrest⟩
        exact mem_keysOf.mpr ⟨f, hf, hfk⟩
      · rcases mem_modified_iff.mp h with ⟨f, rf, hf, hfk, hrest1, hrest2⟩
        exact mem_keysOf.mpr ⟨f, hf, hfk⟩
      · rcases mem_unchanged_iff.mp h with ⟨f, rf, hf, hfk, hrest1, hrest2⟩
        exact mem_keysOf.mpr ⟨f, hf, hfk⟩
  · rintro k ⟨ha, hm⟩
    rcases mem_added_iff.mp ha with ⟨f1, hf1, hk1, hnone⟩
    rcases mem_modified_iff.mp hm with ⟨f2, rf2, hf2, hk2, hsome, heq2⟩
    rw [hnone] at hsome
    exact Option.noConfusion hsome
  · rintro k ⟨ha, hu⟩
    rcases mem_added_iff.mp ha with ⟨f1, hf1, hk1, hnone⟩
    rcases mem_unchanged_iff.mp hu with ⟨f2, rf2, hf2, hk2, hsome, heq2⟩
    rw [hnone] at hsome
    exact Option.noConfusion hsome
  · rintro k ⟨hm, hu⟩
    rcases mem_modified_iff.mp hm with ⟨f1, rf1, hf1, hk1, hlook1, heq1⟩
    rcases mem_unchanged_iff.mp hu with ⟨f2, rf2, hf2, hk2, hlook2, heq2⟩
    have hrf : rf1 = rf2 := by rw [hlook1] at hlook2; exact Option.some.inj hlook2
    have hff : f1 = f2 := keysOf_nodup_inj hl hf1 hf2 (by rw [hk1, hk2])
    rw [hff, hrf, heq2] at heq1
    simp at heq1

/-! ### Characterization of the DevCycle push loop -/

namespace devcycle

theorem pushFold_created (s : List Variable) (d : Bool) (b : Backend) :
    ∀ (l : List Flag) (acc : PushResult × List Variable),
    (l.foldl (pushStep s d b) acc).1.Created
      = acc.1.Created ++ l.filter (createdPred s d b) := by
  intro l
  induction l with
  | nil => intro acc; simp
  | cons f rest ih =>
    intro acc
    rw [List.foldl_cons, ih]
    rcases h : lookupVar s f.Key with _ | ev
    · by_cases hd : d
      · simp [pushStep, createdPred, h, hd, List.filter_cons]
      · by_cases hc : b.createOk f.Key
        · simp [pushStep, createdPred, h, hd, hc, List.filter_cons]
        · simp [pushStep, createdPred, h, hd, hc, List.filter_cons]
    · by_cases hn : variableNeedsUpdate ev (flagToVariable f)
      · by_cases hd : d
        · simp [pushStep, createdPred, h, hn, hd, List.filter_cons]
        · by_cases hu : b.updateOk f.Key
          · simp [pushStep, createdPred, h, hn, hd, hu, List.filter_cons]
          · simp [pushStep, createdPred, h, hn, hd, hu, List.filter_cons]
      · simp [pushStep, createdPred, h, hn, List.filter_cons]

theorem pushFold_updated (s : List Variable) (d : Bool) (b : Backend) :
    ∀ (l : List Flag) (acc : PushResult × List Variable),
    (l.foldl (pushStep s d b) acc).1.Updated
      = acc.1.Updated ++ l.filter (updatedPred s d b) := by
  intro l
  induction l with
  | nil => intro acc; simp
  | cons f rest ih =>
    intro acc
    rw [List.foldl_cons, ih]
    rcases h : lookupVar s f.Key with _ | ev
    · by_cases hd : d
      · simp [pushStep, updatedPred, h, hd, List.filter_cons]
      · by_cases hc : b.createOk f.Key
        · simp [pushStep, updatedPred, h, hd, hc, List.filter_cons]
        · simp [pushStep, updatedPred, h, hd, hc, List.filter_cons]
    · by_cases hn : variableNeedsUpdate ev (flagToVariable f)
      · by_cases hd : d
        · simp [pushStep, updatedPred, h, hn, hd, List.filter_cons]
        · by_cases hu : b.updateOk f.Key
          · simp [pushStep, updatedPred, h, hn, hd, hu, List.filter_cons]
          · simp [pushStep, updatedPred, h, hn, hd, hu, List.filter_cons]
      · simp [pushStep, updatedPred, h, hn, List.filter_cons]

theorem pushFold_unchanged (s : List Variable) (d : Bool) (b : Backend) :
    ∀ (l : List Flag) (acc : PushResult × List Variable),
    (l.foldl (pushStep s d b) acc).1.Unchanged
      = acc.1.Unchanged ++ l.filter (unchangedPred s) := by
  intro l
  induction l with
  | nil => intro acc; simp
  | cons f rest ih =>
    intro acc
    rw [List.foldl_cons, ih]
    rcases h : lookupVar s f.Key with _ | ev
    · by_cases hd : d
      · simp [pushStep, unchangedPred, h, hd, List.filter_cons]
      · by_cases hc : b.createOk f.Key
        · simp [pushStep, unchangedPred, h, hd, hc, List.filter_cons]
        · simp [pushStep, unchangedPred, h, hd, hc, List.filter_cons]
    · by_cases hn : variableNeedsUpdate ev (flagToVariable f)
      · by_cases hd : d
        · simp [pushStep, unchangedPred, h, hn, hd, List.filter_cons]
        · by_cases hu : b.updateOk f.Key
          · simp [pushStep, unchangedPred, h, hn, hd, hu, List.filter_cons]
          · simp [pushStep, unchangedPred, h, hn, hd, hu, List.filter_cons]
      · simp [pushStep, unchangedPred, h, hn, List.filter_cons]

theorem pushFold_errors (s : List Variable) (d : Bool) (b : Backend) :
    ∀ (l : List Flag) (acc : PushResult × List Variable),
    (l.foldl (pushStep s d b) acc).1.Errors
      = acc.1.Errors ++ l.filterMap (errorEntry s d b) := by
  intro l
  induction l with
  | nil => intro acc; simp
  | cons f rest ih =>
    intro acc
    rw [List.foldl_cons, ih]
    rcases h : lookupVar s f.Key with _ | ev
    · by_cases hd : d
      · simp [pushStep, errorEntry, h, hd, List.filterMap_cons]
      · by_cases hc : b.createOk f.Key
        · simp [pushStep, errorEntry, h, hd, hc, List.filterMap_cons]
        · simp [pushStep, errorEntry, h, hd, hc, List.filterMap_cons]
    · by_cases hn : variableNeedsUpdate ev (flagToVariable f)
      · by_cases hd : d
        · simp [pushStep, errorEntry, h, hn, hd, List.filterMap_cons]
        · by_cases hu : b.updateOk f.Key
          · simp [pushStep, errorEntry, h, hn, hd, hu, List.filterMap_cons]
          · simp [pushStep, errorEntry, h, hn, hd, hu, List.filterMap_cons]
      · simp [pushStep, errorEntry, h, hn, List.filterMap_cons]

theorem pushStep_count (s : List Variable) (d : Bool) (b : Backend)
    (acc : PushResult × List Variable) (f : Flag) :
    (pushStep s d b acc f).1.Created.length + (pushStep s d b acc f).1.Updated.length
      + (pushStep s d b acc f).1.Unchanged.length + (pushStep s d b acc f).1.Errors.length
    = acc.1.Created.length + acc.1.Updated.length + acc.1.Unchanged.length
      + acc.1.Errors.length + 1 := by
  rcases h : lookupVar s f.Key with _ | ev
  · by_cases hd : d <;> by_cases hc : b.createOk f.Key <;>
      simp [pushStep, h, hd, hc] <;> omega
  · by_cases hn : variableNeedsUpdate ev (flagToVariable f) <;> by_cases hd : d <;>
      by_cases hu : b.updateOk f.Key <;> simp [pushStep, h, hn, hd, hu] <;> omega

theorem pushFold_count (s : List Variable) (d : Bool) (b : Backend) :
    ∀ (l : List Flag) (acc : PushResult × List Variable),
    (l.foldl (pushStep s d b) acc).1.Created.length
      + (l.foldl (pushStep s d b) acc).1.Updated.length
      + (l.foldl (pushStep s d b) acc).1.Unchanged.length
      + (l.foldl (pushStep s d b) acc).1.Errors.length
    = acc.1.Created.length + acc.1.Updated.length + acc.1.Unchanged.length
      + acc.1.Errors.length + l.length := by
  intro l
  induction l with
  | nil => intro acc; simp
  | cons f rest ih =>
    intro acc
    rw [List.foldl_cons, ih, pushStep_count]
    simp
    omega

/-- Claim C5: During a push whose initial remote fetch succeeded, a failed
create/update for one flag never aborts the loop: each local flag contributes
exactly one entry to Created/Updated/Unchanged/Errors (so the bucket sizes sum
to the local count), and every local flag lands in one of those buckets no
matter which backend calls fail. -/
theorem push_accumulates_errors_and_continues (l : List Flag) (s : List Variable)
    (d : Bool) (b : Backend) :
    ((Push l s d b).Created.length + (Push l s d b).Updated.length
      + (Push l s d b).Unchanged.length + (Push l s d b).Errors.length = l.length)
    ∧ ∀ f ∈ l, f ∈ (Push l s d b).Created ∨ f ∈ (Push l s d b).Updated
        ∨ f ∈ (Push l s d b).Unchanged
        ∨ ("failed to update " ++ f.Key) ∈ (Push l s d b).Errors
        ∨ ("failed to create " ++ f.Key) ∈ (Push l s d b).Errors := by
  constructor
  · have h := pushFold_count s d b l ({}, s)
    simpa [Push, pushExec] using h
  · intro f hf
    have hc := pushFold_created s d b l ({}, s)
    have hu := pushFold_updated s d b l ({}, s)
    have hn := pushFold_unchanged s d b l ({}, s)
    have he := pushFold_errors s d b l ({}, s)
    simp only [Push, pushExec] at *
    rcases hlook : lookupVar s f.Key with _ | ev
    · by_cases hok : (d || b.createOk f.Key) = true
      · refine Or.inl ?_
        rw [hc]
        simp only [List.mem_append]
        exact Or.inr (List.mem_filter.mpr ⟨hf, by simp [createdPred, hlook, hok]⟩)
      · refine Or.inr (Or.inr (Or.inr (Or.inr ?_)))
        rw [he]
        simp only [List.mem_append]
        refine Or.inr (List.mem_filterMap.mpr ⟨f, hf, ?_⟩)
        simp only [Bool.or_eq_true, not_or, Bool.not_eq_true] at hok
        simp [errorEntry, hlook, hok.1, hok.2]
    · by_cases hneed : variableNeedsUpdate ev (flagToVariable f) = true
      · by_cases hok : (d || b.updateOk f.Key) = true
        · refine Or.inr (Or.inl ?_)
          rw [hu]
          simp only [List.mem_append]
          exact Or.inr (List.mem_filter.mpr ⟨hf, by simp [updatedPred, hlook, hneed, hok]⟩)
        · refine Or.inr (Or.inr (Or.inr (Or.inl ?_)))
          rw [he]
          simp only [List.mem_append]
          refine Or.inr (List.mem_filterMap.mpr ⟨f, hf, ?_⟩)
          simp only [Bool.or_eq_true, not_or, Bool.not_eq_true] at hok
          simp [errorEntry, hlook, hneed, hok.1, hok.2]
      · refine Or.inr (Or.inr (Or.inl ?_))
        rw [hn]
        simp only [List.mem_append]
        exact Or.inr (List.mem_filter.mpr ⟨hf, by simp [unchangedPred, hlook, hneed]⟩)

/-- Closed witness for C5: in a two-flag push against a backend whose update
call fails, the bucket sizes still sum to the flag count and the flag with the
failing update is still accounted for. -/
theorem push_accumulates_errors_and_continues_witness :
    ((Push [Flag.mk "a" FlagType.boolType "d" (GoValue.vBool true) "",
            Flag.mk "b" FlagType.stringType "" (GoValue.vStr "x") ""]
           [Variable.mk "a" "a" "Boolean" "d" (GoValue.vBool false)]
           false (Backend.mk (fun k => true) (fun k => false))).Created.length
      + (Push [Flag.mk "a" FlagType.boolType "d" (GoValue.vBool true) "",
               Flag.mk "b" FlagType.stringType "" (GoValue.vStr "x") ""]
              [Variable.mk "a" "a" "Boolean" "d" (GoValue.vBool false)]
              false (Backend.mk (fun k => true) (fun k => false))).Updated.length
      + (Push [Flag.mk "a" FlagType.boolType "d" (GoValue.vBool true) "",
               Flag.mk "b" FlagType.stringType "" (GoValue.vStr "x") ""]
              [Variable.mk "a" "a" "Boolean" "d" (GoValue.vBool false)]
              false (Backend.mk (fun k => true) (fun k => false))).Unchanged.length
      + (Push [Flag.mk "a" FlagType.boolType "d" (GoValue.vBool true) "",
               Flag.mk "b" FlagType.stringType "" (GoValue.vStr "x") ""]
              [Variable.mk "a" "a" "Boolean" "d" (GoValue.vBool false)]
              false (Backend.mk (fun k => true) (fun k => false))).Errors.length = 2)
    ∧ (Flag.mk "a" FlagType.boolType "d" (GoValue.vBool true) ""
         ∈ (Push [Flag.mk "a" FlagType.boolType "d" (GoValue.vBool true) "",
                  Flag.mk "b" FlagType.stringType "" (GoValue.vStr "x") ""]
                 [Variable.mk "a" "a" "Boolean" "d" (GoValue.vBool false)]
                 false (Backend.mk (fun k => true) (fun k => false))).Created
       ∨ Flag.mk "a" FlagType.boolType "d" (GoValue.vBool true) ""
         ∈ (Push [Flag.mk "a" FlagType.boolType "d" (GoValue.vBool true) "",
                  Flag.mk "b" FlagType.stringType "" (GoValue.vStr "x") ""]
                 [Variable.mk "a" "a" "Boolean" "d" (GoValue.vBool false)]
                 false (Backend.mk (fun k => true) (fun k => false))).Updated
       ∨ Flag.mk "a" FlagType.boolType "d" (GoValue.vBool true) ""
         ∈ (Push [Flag.mk "a" FlagType.boolType "d" (GoValue.vBool true) "",
                  Flag.mk "b" FlagType.stringType "" (GoValue.vStr "x") ""]
                 [Variable.mk "a" "a" "Boolean" "d" (GoValue.vBool false)]
                 false (Backend.mk (fun k => true) (fun k => false))).Unchanged
       ∨ ("failed to update " ++ "a")
         ∈ (Push [Flag.mk "a" FlagType.boolType "d" (GoValue.vBool true) "",
                  Flag.mk "b" FlagType.stringType "" (GoValue.vStr "x") ""]
                 [Variable.mk "a" "a" "Boolean" "d" (GoValue.vBool false)]
                 false (Backend.mk (fun k => true) (fun k => false))).Errors
       ∨ ("failed to create " ++ "a")
         ∈ (Push [Flag.mk "a" FlagType.boolType "d" (GoValue.vBool true) "",
                  Flag.mk "b" FlagType.stringType "" (GoValue.vStr "x") ""]
                 [Variable.mk "a" "a" "Boolean" "d" (GoValue.vBool false)]
                 false (Backend.mk (fun k => true) (fun k => false))).Errors) :=
  ⟨(push_accumulates_errors_and_continues _ _ _ _).1,
   (push_accumulates_errors_and_continues _ _ _ _).2
     (Flag.mk "a" FlagType.boolType "d" (GoValue.vBool true) "") (by simp)⟩

/-- Claim C4: Two flags that agree on key, type and description and whose
default values have the same `%v` string rendering are `flagsEqual`; the
compare classification puts the local one in Unchanged and never in Modified,
and the push loop classifies it as Unchanged (never Updated), even when the
underlying value representations differ in numeric formatting (witness:
the JSON literal `1.0` versus the Go int `1`). -/
theorem rendered_equal_flags_unchanged (a b : Flag)
    (hk : a.Key = b.Key) (ht : a.Typ = b.Typ) (hd : a.Description = b.Description)
    (hv : a.DefaultValue.render = b.DefaultValue.render) :
    flagsEqual a b = true
    ∧ variableNeedsUpdate (flagToVariable b) (flagToVariable a) = false
    ∧ (∀ lcl rmt, a ∈ lcl → lookupFlag rmt a.Key = some b →
        a ∈ (compareFlagLists lcl rmt).Unchanged
        ∧ ∀ df ∈ (compareFlagLists lcl rmt).Modified, df.Lcl ≠ a)
    ∧ (∀ lcl srv dryRun bk, a ∈ lcl → lookupVar srv a.Key = some (flagToVariable b) →
        a ∈ (Push lcl srv dryRun bk).Unchanged) := by
  have hfe : flagsEqual a b = true := by
    simp [flagsEqual, hk, ht, hd, hv]
  have hnu : variableNeedsUpdate (flagToVariable b) (flagToVariable a) = false := by
    simp [variableNeedsUpdate, flagToVariable, ht, hd, hv]
  refine ⟨hfe, hnu, ?_, ?_⟩
  · intro lcl rmt ha hlook
    constructor
    · apply List.mem_filter.mpr
      refine ⟨ha, ?_⟩
      simp only [hlook]
      exact hfe
    · intro df hdf hdfl
      rcases List.mem_filterMap.mp hdf with ⟨f, hf, hgf⟩
      rcases hlf : lookupFlag rmt f.Key with _ | rf
      · simp [hlf] at hgf
      · simp only [hlf] at hgf
        rcases heq : flagsEqual f rf with _ | _
        · rw [heq] at hgf
          simp only [Bool.false_eq_true, if_false, Option.some.injEq] at hgf
          subst hgf
          simp only [FlagDiff.Lcl] at hdfl
          subst hdfl
          rw [hlook] at hlf
          have : b = rf := Option.some.inj hlf
          subst this
          rw [hfe] at heq
          exact Bool.noConfusion heq
        · rw [heq] at hgf
          simp at hgf
  · intro lcl srv dryRun bk ha hlook
    rw [Push, pushExec, pushFold_unchanged]
    simp only [List.mem_append]
    refine Or.inr (List.mem_filter.mpr ⟨ha, ?_⟩)
    simp [unchangedPred, hlook, hnu]

/-- Closed witness for C4: local flag with default the JSON literal `1.0`
(`vFloat 10 1`) against a remote flag with default the Go int `1` — both
render as `"1"` — classifies as Unchanged. -/
theorem rendered_equal_flags_unchanged_witness :
    flagsEqual (Flag.mk "n" FlagType.floatType "d" (GoValue.vFloat 10 1) "")
               (Flag.mk "n" FlagType.floatType "d" (GoValue.vInt 1) "") = true
    ∧ (Flag.mk "n" FlagType.floatType "d" (GoValue.vFloat 10 1) "")
        ∈ (compareFlagLists
            [Flag.mk "n" FlagType.floatType "d" (GoValue.vFloat 10 1) ""]
            [Flag.mk "n" FlagType.floatType "d" (GoValue.vInt 1) ""]).Unchanged :=
  ⟨(rendered_equal_flags_unchanged _ _ rfl rfl rfl rfl).1,
   ((rendered_equal_flags_unchanged
      (Flag.mk "n" FlagType.floatType "d" (GoValue.vFloat 10 1) "")
      (Flag.mk "n" FlagType.floatType "d" (GoValue.vInt 1) "") rfl rfl rfl rfl).2.2.1
      [Flag.mk "n" FlagType.floatType "d" (GoValue.vFloat 10 1) ""]
      [Flag.mk "n" FlagType.floatType "d" (GoValue.vInt 1) ""]
      (by simp) rfl).1⟩

/-- Claim C2 counterexample: Against a remote state whose update call for key
`a` fails, a dry-run push and a real push of the same local flagset do not
have the same Updated membership: the dry run reports `a` as Updated while the
real run moves it to the error list. -/
theorem push_dry_run_divergence_cex :
    (Push [Flag.mk "a" FlagType.boolType "d" (GoValue.vBool true) ""]
          [Variable.mk "a" "a" "Boolean" "d" (GoValue.vBool false)]
          true (Backend.mk (fun k => true) (fun k => false))).Updated
      = [Flag.mk "a" FlagType.boolType "d" (GoValue.vBool true) ""]
    ∧ (Push [Flag.mk "a" FlagType.boolType "d" (GoValue.vBool true) ""]
            [Variable.mk "a" "a" "Boolean" "d" (GoValue.vBool false)]
            false (Backend.mk (fun k => true) (fun k => false))).Updated = []
    ∧ (Push [Flag.mk "a" FlagType.boolType "d" (GoValue.vBool true) ""]
            [Variable.mk "a" "a" "Boolean" "d" (GoValue.vBool false)]
            true (Backend.mk (fun k => true) (fun k => false))).Updated
      ≠ (Push [Flag.mk "a" FlagType.boolType "d" (GoValue.vBool true) ""]
              [Variable.mk "a" "a" "Boolean" "d" (GoValue.vBool false)]
              false (Backend.mk (fun k => true) (fun k => false))).Updated := by
  refine ⟨rfl, rfl, ?_⟩
  intro h
  rw [show (Push [Flag.mk "a" FlagType.boolType "d" (GoValue.vBool true) ""]
          [Variable.mk "a" "a" "Boolean" "d" (GoValue.vBool false)]
          true (Backend.mk (fun k => true) (fun k => false))).Updated
      = [Flag.mk "a" FlagType.boolType "d" (GoValue.vBool true) ""] from rfl,
      show (Push [Flag.mk "a" FlagType.boolType "d" (GoValue.vBool true) ""]
            [Variable.mk "a" "a" "Boolean" "d" (GoValue.vBool false)]
            false (Backend.mk (fun k => true) (fun k => false))).Updated = [] from rfl] at h
  exact List.noConfusion h

/-- Claim C2, amended: Provided every create/update call issued by the push
succeeds, the classification of a dry-run push equals that of a real push
against the same remote snapshot: same Created, Updated and Unchanged lists,
and no errors on either side. -/
theorem push_dry_run_equivalence (l : List Flag) (s : List Variable) (b : Backend)
    (hcreate : ∀ k, b.createOk k = true) (hupdate : ∀ k, b.updateOk k = true) :
    (Push l s true b).Created = (Push l s false b).Created
    ∧ (Push l s true b).Updated = (Push l s false b).Updated
    ∧ (Push l s true b).Unchanged = (Push l s false b).Unchanged
    ∧ (Push l s true b).Errors = [] ∧ (Push l s false b).Errors = [] := by
  refine ⟨?_, ?_, ?_, ?_, ?_⟩
  · rw [Push, Push, pushExec, pushExec, pushFold_created, pushFold_created]
    refine congrArg _ (List.filter_congr ?_)
    intro f hf
    simp [createdPred, hcreate f.Key]
  · rw [Push, Push, pushExec, pushExec, pushFold_updated, pushFold_updated]
    refine congrArg _ (List.filter_congr ?_)
    intro f hf
    rcases h : lookupVar s f.Key with _ | ev <;> simp [updatedPred, h, hupdate f.Key]
  · rw [Push, Push, pushExec, pushExec, pushFold_unchanged, pushFold_unchanged]
  · rw [Push, pushExec, pushFold_errors]
    refine List.append_eq_nil.mpr ⟨rfl, List.filterMap_eq_nil_iff.mpr ?_⟩
    intro f hf
    rcases h : lookupVar s f.Key with _ | ev <;> simp [errorEntry, h]
  · rw [Push, pushExec, pushFold_errors]
    refine List.append_eq_nil.mpr ⟨rfl, List.filterMap_eq_nil_iff.mpr ?_⟩
    intro f hf
    rcases h : lookupVar s f.Key with _ | ev <;>
      simp [errorEntry, h, hcreate f.Key, hupdate f.Key]

/-- Closed witness for the amended C2: with an always-succeeding backend, the
dry and real runs of a one-create one-update push classify identically. -/
theorem push_dry_run_equivalence_witness :
    (Push [Flag.mk "a" FlagType.boolType "d" (GoValue.vBool true) "",
           Flag.mk "b" FlagType.stringType "" (GoValue.vStr "x") ""]
          [Variable.mk "a" "a" "Boolean" "d" (GoValue.vBool false)]
          true (Backend.mk (fun k => true) (fun k => true))).Created
      = (Push [Flag.mk "a" FlagType.boolType "d" (GoValue.vBool true) "",
               Flag.mk "b" FlagType.stringType "" (GoValue.vStr "x") ""]
              [Variable.mk "a" "a" "Boolean" "d" (GoValue.vBool false)]
              false (Backend.mk (fun k => true) (fun k => true))).Created
    ∧ (Push [Flag.mk "a" FlagType.boolType "d" (GoValue.vBool true) "",
             Flag.mk "b" FlagType.stringType "" (GoValue.vStr "x") ""]
            [Variable.mk "a" "a" "Boolean" "d" (GoValue.vBool false)]
            true (Backend.mk (fun k => true) (fun k => true))).Updated
      = (Push [Flag.mk "a" FlagType.boolType "d" (GoValue.vBool true) "",
               Flag.mk "b" FlagType.stringType "" (GoValue.vStr "x") ""]
              [Variable.mk "a" "a" "Boolean" "d" (GoValue.vBool false)]
              false (Backend.mk (fun k => true) (fun k => true))).Updated :=
  ⟨(push_dry_run_equivalence _ _ _ (fun k => rfl) (fun k => rfl)).1,
   (push_dry_run_equivalence _ _ _ (fun k => rfl) (fun k => rfl)).2.1⟩

/-- Claim C3, code bug: Push is not idempotent: a first, fully successful real
push whose only work is an update (because the default value differs remotely)
leaves the remote default value untouched — `UpdateVariable` PATCHes only the
description — so a second push of the identical local flagset against the
resulting remote state classifies the same flag as Updated again instead of
yielding `Updated = ∅`. -/
theorem push_not_idempotent_bug :
    (pushExec [Flag.mk "a" FlagType.boolType "d" (GoValue.vBool true) ""]
              [Variable.mk "a" "a" "Boolean" "d" (GoValue.vBool false)]
              false (Backend.mk (fun k => true) (fun k => true))).1.Errors = []
    ∧ (pushExec [Flag.mk "a" FlagType.boolType "d" (GoValue.vBool true) ""]
                [Variable.mk "a" "a" "Boolean" "d" (GoValue.vBool false)]
                false (Backend.mk (fun k => true) (fun k => true))).1.Updated
      = [Flag.mk "a" FlagType.boolType "d" (GoValue.vBool true) ""]
    ∧ (pushExec [Flag.mk "a" FlagType.boolType "d" (GoValue.vBool true) ""]
                (pushExec [Flag.mk "a" FlagType.boolType "d" (GoValue.vBool true) ""]
                          [Variable.mk "a" "a" "Boolean" "d" (GoValue.vBool false)]
                          false (Backend.mk (fun k => true) (fun k => true))).2
                false (Backend.mk (fun k => true) (fun k => true))).1.Created = []
    ∧ (pushExec [Flag.mk "a" FlagType.boolType "d" (GoValue.vBool true) ""]
                (pushExec [Flag.mk "a" FlagType.boolType "d" (GoValue.vBool true) ""]
                          [Variable.mk "a" "a" "Boolean" "d" (GoValue.vBool false)]
                          false (Backend.mk (fun k => true) (fun k => true))).2
                false (Backend.mk (fun k => true) (fun k => true))).1.Updated
      = [Flag.mk "a" FlagType.boolType "d" (GoValue.vBool true) ""] :=
  ⟨rfl, rfl, rfl, rfl⟩

end devcycle


/-- Closed witness for C1: the partition property at a concrete pair of
flagsets exercising all four buckets. -/
theorem compare_diff_completeness_witness :
    ComparePartition
      [Flag.mk "a" FlagType.boolType "" (GoValue.vBool false) "",
       Flag.mk "b" FlagType.stringType "" (GoValue.vStr "x") ""]
      [Flag.mk "b" FlagType.stringType "" (GoValue.vStr "y") "",
       Flag.mk "c" FlagType.intType "" (GoValue.vInt 3) ""]
      (compareFlagLists
        [Flag.mk "a" FlagType.boolType "" (GoValue.vBool false) "",
         Flag.mk "b" FlagType.stringType "" (GoValue.vStr "x") ""]
        [Flag.mk "b" FlagType.stringType "" (GoValue.vStr "y") "",
         Flag.mk "c" FlagType.intType "" (GoValue.vInt 3) ""]) :=
  compare_diff_completeness _ _ (by decide) (by decide)

/-! ### C7: token lifecycle of the DevCycle client -/

namespace devcycle

/-- Claim C7: A client whose cached token is non-empty and unexpired performs
zero authentication calls and uses the cached token unchanged for the request;
a client whose token expiry is in the past performs exactly one
re-authentication before the request proceeds, and a successful exchange
stores the new token with expiry `now + expiresIn − 60` — strictly shorter
than the server-reported lifetime. -/
theorem token_refresh (c : TokenState) (now : Int)
    (exchange : Except String TokenResponse) :
    (c.accessToken ≠ "" → now < c.tokenExpiry →
      authenticate c now exchange = (Except.ok (), c, 0)
      ∧ doRequest c now exchange = (Except.ok ("Bearer " ++ c.accessToken), c, 0))
    ∧ (c.tokenExpiry < now →
      (authenticate c now exchange).2.2 = 1
      ∧ ∀ tr, exchange = Except.ok tr →
          authenticate c now exchange
            = (Except.ok (), { accessToken := tr.accessToken,
                               tokenExpiry := now + (tr.expiresIn - 60) }, 1)
          ∧ now + (tr.expiresIn - 60) < now + tr.expiresIn
          ∧ doRequest c now exchange
            = (Except.ok ("Bearer " ++ tr.accessToken),
               { accessToken := tr.accessToken,
                 tokenExpiry := now + (tr.expiresIn - 60) }, 1)) := by
  constructor
  · intro h1 h2
    have hcond : c.accessToken ≠ "" ∧ now < c.tokenExpiry := ⟨h1, h2⟩
    exact ⟨by simp [authenticate, hcond], by simp [doRequest, authenticate, hcond]⟩
  · intro hpast
    have hcond : ¬(c.accessToken ≠ "" ∧ now < c.tokenExpiry) := by
      rintro ⟨h1, h2⟩
      omega
    constructor
    · rcases exchange with e | tr <;> simp [authenticate, hcond]
    · intro tr htr
      subst htr
      exact ⟨by simp [authenticate, hcond], by omega,
             by simp [doRequest, authenticate, hcond]⟩

/-- Closed witness for C7: a still-valid token performs zero authentication
calls; an expired one performs exactly one exchange and stores the shortened
expiry. -/
theorem token_refresh_witness :
    authenticate (TokenState.mk "tok" 100) 50 (Except.ok (TokenResponse.mk "x" "Bearer" 3600))
      = (Except.ok (), TokenState.mk "tok" 100, 0)
    ∧ authenticate (TokenState.mk "old" 10) 50 (Except.ok (TokenResponse.mk "new" "Bearer" 3600))
      = (Except.ok (), TokenState.mk "new" (50 + (3600 - 60)), 1)
    ∧ (50 : Int) + (3600 - 60) < 50 + 3600 :=
  ⟨((token_refresh (TokenState.mk "tok" 100) 50
      (Except.ok (TokenResponse.mk "x" "Bearer" 3600))).1 (by decide) (by decide)).1,
   (((token_refresh (TokenState.mk "old" 10) 50
      (Except.ok (TokenResponse.mk "new" "Bearer" 3600))).2 (by decide)).2
      (TokenResponse.mk "new" "Bearer" 3600) rfl).1,
   (((token_refresh (TokenState.mk "old" 10) 50
      (Except.ok (TokenResponse.mk "new" "Bearer" 3600))).2 (by decide)).2
      (TokenResponse.mk "new" "Bearer" 3600) rfl).2.1⟩

end devcycle

/-! ### C6: registry guards -/

namespace manager

/-- Claim C6: `Register` fails on an empty metadata name and leaves the registry
unchanged; registering a second factory under an already-taken name fails,
leaves the registry unchanged, and `Get` still returns the first factory's
instance. -/
theorem register_guards (m : Manager) (f1 f2 : PluginFactory) :
    (f1.metadata.Name = "" →
      (m.Register f1).1 = Except.error "plugin name cannot be empty"
      ∧ (m.Register f1).2 = m)
    ∧ (f2.metadata.Name = f1.metadata.Name → f1.metadata.Name ≠ "" →
       m.lookup f1.metadata.Name = none →
        (m.Register f1).1 = Except.ok ()
        ∧ (((m.Register f1).2).Register f2).1
            = Except.error ("plugin " ++ f2.metadata.Name ++ " is already registered")
        ∧ (((m.Register f1).2).Register f2).2 = (m.Register f1).2
        ∧ ((m.Register f1).2).Get f1.metadata.Name = Except.ok f1) := by
  constructor
  · intro h
    exact ⟨by simp [Manager.Register, h], by simp [Manager.Register, h]⟩
  · intro hname hne hnew
    have hreg1 : m.Register f1
        = (Except.ok (),
           { plugins := m.plugins ++
              [(f1.metadata.Name,
                { Name := f1.metadata.Name, Description := f1.metadata.Description,
                  Stability := f1.metadata.Stability, Factory := f1 })] }) := by
      simp [Manager.Register, hne, hnew]
    have hfindm : m.plugins.find? (fun p => p.1 = f1.metadata.Name) = none := by
      have := hnew
      rw [Manager.lookup] at this
      exact Option.map_eq_none'.mp this
    have hlook1 : ((m.Register f1).2).lookup f1.metadata.Name
        = some { Name := f1.metadata.Name, Description := f1.metadata.Description,
                 Stability := f1.metadata.Stability, Factory := f1 } := by
      rw [hreg1]
      simp [Manager.lookup, List.find?_append, hfindm]
    refine ⟨by rw [hreg1], ?_, ?_, ?_⟩
    · rw [Manager.Register]
      rw [hname] at *
      simp [hne, hlook1]
    · rw [Manager.Register]
      rw [hname] at *
      simp [hne, hlook1]
    · rw [Manager.Get, hlook1]

/-- Closed witness for C6: duplicate registration of the name `default` is
rejected and the first factory stays retrievable. -/
theorem register_guards_witness :
    ((NewManager.Register (PluginFactory.mk 0 (Metadata.mk "default" "first" "stable"))).2.Register
        (PluginFactory.mk 1 (Metadata.mk "default" "second" "beta"))).1
      = Except.error ("plugin " ++ "default" ++ " is already registered")
    ∧ ((NewManager.Register (PluginFactory.mk 0 (Metadata.mk "default" "first" "stable"))).2.Register
        (PluginFactory.mk 1 (Metadata.mk "default" "second" "beta"))).2
      = (NewManager.Register (PluginFactory.mk 0 (Metadata.mk "default" "first" "stable"))).2
    ∧ (NewManager.Register (PluginFactory.mk 0 (Metadata.mk "default" "first" "stable"))).2.Get "default"
      = Except.ok (PluginFactory.mk 0 (Metadata.mk "default" "first" "stable")) :=
  ⟨((register_guards NewManager
      (PluginFactory.mk 0 (Metadata.mk "default" "first" "stable"))
      (PluginFactory.mk 1 (Metadata.mk "default" "second" "beta"))).2
      rfl (by decide) rfl).2.1,
   ((register_guards NewManager
      (PluginFactory.mk 0 (Metadata.mk "default" "first" "stable"))
      (PluginFactory.mk 1 (Metadata.mk "default" "second" "beta"))).2
      rfl (by decide) rfl).2.2.1,
   ((register_guards NewManager
      (PluginFactory.mk 0 (Metadata.mk "default" "first" "stable"))
      (PluginFactory.mk 1 (Metadata.mk "default" "second" "beta"))).2
      rfl (by decide) rfl).2.2.2⟩

end manager


/-! ### C8: manifest round trip -/

namespace manifest

theorem parse_goString (t : FlagType) (h : t ≠ FlagType.unknownFlagType) :
    ParseFlagType t.goString = Except.ok t := by
  cases t with
  | unknownFlagType => exact absurd rfl h
  | intType => rfl
  | floatType => rfl
  | boolType => rfl
  | stringType => rfl
  | objectType => rfl

theorem readEntry_marshalled (f : Flag) (h : f.Typ ≠ FlagType.unknownFlagType)
    (acc : List Flag) :
    readEntry acc
      (f.Key, { flagType := f.Typ.goString, description := f.Description,
                defaultValue := f.DefaultValue,
                expiry := if f.Expiry = "" then none else some f.Expiry })
      = Except.ok (acc ++ [f]) := by
  cases f with
  | mk k t dsc dv ex =>
    simp only at h
    by_cases he : ex = "" <;>
      simp [readEntry, parse_goString t h, he]

theorem unmarshal_fold (flags : List Flag)
    (h : ∀ f ∈ flags, f.Typ ≠ FlagType.unknownFlagType) :
    ∀ acc, (MarshalJSON (Flagset.mk flags)).foldlM readEntry acc
      = Except.ok (acc ++ flags) := by
  induction flags with
  | nil =>
    intro acc
    simp only [MarshalJSON, List.map_nil, List.foldlM_nil, List.append_nil]
    rfl
  | cons f rest ih =>
    intro acc
    rw [MarshalJSON]
    simp only [List.map_cons, List.foldlM_cons]
    rw [readEntry_marshalled f (h f (by simp)) acc]
    have hrest := ih (fun g hg => h g (List.mem_cons_of_mem _ hg)) (acc ++ [f])
    rw [MarshalJSON] at hrest
    show (MarshalJSON (Flagset.mk rest)).foldlM readEntry (acc ++ [f]) = _
    rw [MarshalJSON, hrest]
    simp

theorem sortByKey_of_sorted :
    ∀ l : List Flag, l.Pairwise (fun a b => a.Key < b.Key) → sortByKey l = l := by
  intro l
  induction l with
  | nil => intro h; rfl
  | cons a t ih =>
    intro h
    rw [sortByKey, List.foldr_cons]
    have ht : t.foldr insertByKey [] = t := ih (List.Pairwise.of_cons h)
    rw [ht]
    cases t with
    | nil => rfl
    | cons bf t2 =>
      have hab : a.Key < bf.Key := (List.pairwise_cons.mp h).1 bf (by simp)
      simp [insertByKey, le_of_lt hab]

/-- Claim C8: For every flagset in loader-normal form (strictly key-sorted, all
flag types known), serializing with `MarshalJSON` and parsing the result with
`UnmarshalJSON` returns exactly the same flagset: same keys with the same
type, description, default value and expiry, in sorted key order. -/
theorem marshal_unmarshal_roundtrip (fs : Flagset)
    (hsort : fs.Flags.Pairwise (fun a b => a.Key < b.Key))
    (htypes : ∀ f ∈ fs.Flags, f.Typ ≠ FlagType.unknownFlagType) :
    UnmarshalJSON (MarshalJSON fs) = Except.ok fs := by
  obtain ⟨flags⟩ := fs
  rw [UnmarshalJSON]
  rw [unmarshal_fold flags htypes []]
  show Except.ok ([] ++ flags) >>= (fun fl => pure (Flagset.mk (sortByKey fl))) = _
  simp only [List.nil_append]
  show Except.ok (Flagset.mk (sortByKey flags)) = _
  rw [sortByKey_of_sorted flags hsort]

/-- Closed witness for C8: a concrete two-flag loader-normal flagset (one
expiry set, one omitted) round-trips exactly. -/
theorem marshal_unmarshal_roundtrip_witness :
    UnmarshalJSON (MarshalJSON (Flagset.mk
      [Flag.mk "a" FlagType.boolType "toggle" (GoValue.vBool true) "",
       Flag.mk "b" FlagType.floatType "ratio" (GoValue.vFloat 15 1) "2025-12-31"]))
    = Except.ok (Flagset.mk
      [Flag.mk "a" FlagType.boolType "toggle" (GoValue.vBool true) "",
       Flag.mk "b" FlagType.floatType "ratio" (GoValue.vFloat 15 1) "2025-12-31"]) :=
  marshal_unmarshal_roundtrip _
    (by
      constructor
      · intro g hg
        simp only [List.mem_singleton] at hg
        subst hg
        show "a" < "b"
        rw [String.lt_iff_toList_lt]
        decide
      · exact List.pairwise_singleton _ _)
    (by decide)

end manifest

/-! ### C9: update requests carry only the description -/

namespace devcycle

/-- Claim C9: The PATCH body issued by `Client.UpdateVariable` contains only the
`description` field, so applying an update leaves every remote variable's key,
type and default value unmodified (only the description of the targeted
variable can change). -/
theorem update_body_description_only (v : Variable) (vars : List Variable)
    (key : String) :
    (updateRequestBody v).map Prod.fst = ["description"]
    ∧ (applyUpdate vars key v).map Variable.Key = vars.map Variable.Key
    ∧ (applyUpdate vars key v).map Variable.Typ = vars.map Variable.Typ
    ∧ (applyUpdate vars key v).map Variable.DefaultValue
        = vars.map Variable.DefaultValue := by
  refine ⟨rfl, ?_, ?_, ?_⟩ <;>
  · rw [applyUpdate, List.map_map]
    refine List.map_congr_left ?_
    intro ev hev
    by_cases h : ev.Key = key <;> simp [h]

end devcycle

/-! ### C10: not-configured guards of the default plugin -/

namespace builtin

/-- Claim C10: On a `DefaultPlugin` on which `Configure` was never called (nil
client), `Pull`, `Push` and `Compare` all return the "plugin not configured"
error for every options value, issuing zero network calls instead of crashing
on the nil client. -/
theorem unconfigured_plugin_guard (lcl : Flagset) (opts : Options) :
    DefaultPlugin.Pull NewDefaultPlugin opts
      = (Except.error "plugin not configured: call Configure() first", 0)
    ∧ DefaultPlugin.Push NewDefaultPlugin lcl opts
      = (Except.error "plugin not configured: call Configure() first", 0)
    ∧ DefaultPlugin.Compare NewDefaultPlugin lcl opts
      = (Except.error "plugin not configured: call Configure() first", 0) :=
  ⟨rfl, rfl, rfl⟩

end builtin

end OFCli
